import Mathlib

/-!
Verification of the armor-detector perception pipeline
(src/armor_detector/src/openvino_detector.cpp).

Numbers: the C++ code computes in 32-bit floats; we embed the arithmetic
over the rationals with exact division, and machine integers over the
unbounded integers.  The C library function round (round half away from
zero) is embedded as roundQ x = floor (x + 1/2); both agree on every
argument whose fractional part is not 1/2, and on all nonnegative
arguments, which covers every call site of this program.
-/

namespace RmAutoAim

/-- Width of the network input (INPUT_W in the source). -/
def INPUT_W : ℤ := 416

/-- Height of the network input (INPUT_H in the source). -/
def INPUT_H : ℤ := 416

/-- Number of identity classes (NUM_CLASSES in the source). -/
def NUM_CLASSES : ℕ := 8

/-- Number of color classes (NUM_COLORS in the source). -/
def NUM_COLORS : ℕ := 4

/-- Embedding of the C round function for the (nonnegative, never
half-integral) arguments the program feeds it: round half up. -/
def roundQ (x : ℚ) : ℤ := ⌊x + 1/2⌋

/-- A 3x3 matrix of rationals, row major (Eigen::Matrix3f). -/
structure Mat3 where
  m00 : ℚ
  m01 : ℚ
  m02 : ℚ
  m10 : ℚ
  m11 : ℚ
  m12 : ℚ
  m20 : ℚ
  m21 : ℚ
  m22 : ℚ
deriving Repr, DecidableEq

/-- A 2-D point with rational coordinates (cv::Point2f). -/
structure Pt where
  x : ℚ
  y : ℚ
deriving Repr, DecidableEq, Inhabited

/-- Multiply a homogeneous column vector (x, y, 1) by a 3x3 matrix and
read back the first two coordinates, exactly as generate_proposals reads
apex_dst(0,k) and apex_dst(1,k). -/
def Mat3.apply (m : Mat3) (p : Pt) : Pt :=
  ⟨m.m00 * p.x + m.m01 * p.y + m.m02, m.m10 * p.x + m.m11 * p.y + m.m12⟩

/-- All quantities computed by the letterbox function
(openvino_detector.cpp lines 27-77): the uniform scale, the resized
extents, the per-axis total padding, the fractional half paddings, the
four rounded borders, and the produced inverse transform matrix. -/
structure LetterboxResult where
  scale : ℚ
  resize_w : ℤ
  resize_h : ℤ
  pad_w : ℤ
  pad_h : ℤ
  half_w : ℚ
  half_h : ℚ
  top : ℤ
  bottom : ℤ
  left : ℤ
  right : ℤ
  tm : Mat3
deriving Repr

/-- Embedding of letterbox (lines 33-65).  new_shape is {W, H}; the
source indexes new_shape[0] for the width and new_shape[1] for the
height.  The pixel-level resize and copyMakeBorder are image content and
are not needed by the coordinate claims. -/
def letterbox (img_w img_h W H : ℤ) : LetterboxResult :=
  let scale : ℚ := min ((H : ℚ) / (img_h : ℚ)) ((W : ℚ) / (img_w : ℚ))
  let resize_h : ℤ := roundQ ((img_h : ℚ) * scale)
  let resize_w : ℤ := roundQ ((img_w : ℚ) * scale)
  let pad_h : ℤ := H - resize_h
  let pad_w : ℤ := W - resize_w
  let half_h : ℚ := (pad_h : ℚ) / 2
  let half_w : ℚ := (pad_w : ℚ) / 2
  let top : ℤ := roundQ (half_h - 1/10)
  let bottom : ℤ := roundQ (half_h + 1/10)
  let left : ℤ := roundQ (half_w - 1/10)
  let right : ℤ := roundQ (half_w + 1/10)
  { scale := scale
    resize_w := resize_w
    resize_h := resize_h
    pad_w := pad_w
    pad_h := pad_h
    half_w := half_w
    half_h := half_h
    top := top
    bottom := bottom
    left := left
    right := right
    tm := ⟨1 / scale, 0, -half_w / scale,
           0, 1 / scale, -half_h / scale,
           0, 0, 1⟩ }

/-- The forward scale-then-pad map realized by the letterbox image
operations: a source-image point lands at (x * scale + left,
y * scale + top) in the padded network image. -/
def letterboxForward (lb : LetterboxResult) (p : Pt) : Pt :=
  ⟨p.x * lb.scale + (lb.left : ℚ), p.y * lb.scale + (lb.top : ℚ)⟩

/-- The four corners of the padded W x H network image. -/
def networkCorners (W H : ℤ) : List Pt :=
  [⟨0, 0⟩, ⟨(W : ℚ), 0⟩, ⟨0, (H : ℚ)⟩, ⟨(W : ℚ), (H : ℚ)⟩]

-- Parity facts about the rounded half-padding split.

theorem floor_int_add_q (k : ℤ) (r : ℚ) : ⌊(k : ℚ) + r⌋ = k + ⌊r⌋ :=
  Int.floor_int_add k r

theorem roundQ_half_sub_add (n : ℤ) :
    roundQ ((n : ℚ) / 2 - 1/10) + roundQ ((n : ℚ) / 2 + 1/10) = n := by
  rcases Int.even_or_odd n with ⟨k, hk⟩ | ⟨k, hk⟩
  · subst hk
    have h1 : ((k + k : ℤ) : ℚ) / 2 - 1/10 + 1/2 = (k : ℚ) + 2/5 := by
      push_cast; ring
    have h2 : ((k + k : ℤ) : ℚ) / 2 + 1/10 + 1/2 = (k : ℚ) + 3/5 := by
      push_cast; ring
    simp only [roundQ, h1, h2, floor_int_add_q]
    norm_num
  · subst hk
    have h1 : ((2 * k + 1 : ℤ) : ℚ) / 2 - 1/10 + 1/2 = (k : ℚ) + 9/10 := by
      push_cast; ring
    have h2 : ((2 * k + 1 : ℤ) : ℚ) / 2 + 1/10 + 1/2 = (k : ℚ) + 11/10 := by
      push_cast; ring
    simp only [roundQ, h1, h2, floor_int_add_q]
    norm_num
    ring

theorem roundQ_half_sub_le (n : ℤ) :
    roundQ ((n : ℚ) / 2 - 1/10) ≤ roundQ ((n : ℚ) / 2 + 1/10) := by
  unfold roundQ
  apply Int.floor_le_floor
  linarith

theorem roundQ_half_sub_close (n : ℤ) :
    |((roundQ ((n : ℚ) / 2 - 1/10) : ℚ)) - (n : ℚ) / 2| ≤ 1/2 := by
  rcases Int.even_or_odd n with ⟨k, hk⟩ | ⟨k, hk⟩
  · subst hk
    have h1 : ((k + k : ℤ) : ℚ) / 2 - 1/10 + 1/2 = (k : ℚ) + 2/5 := by
      push_cast; ring
    simp only [roundQ, h1, floor_int_add_q]
    have h0 : ⌊(2/5 : ℚ)⌋ = 0 := by norm_num
    rw [h0]
    push_cast
    rw [abs_le]
    constructor <;> linarith
  · subst hk
    have h1 : ((2 * k + 1 : ℤ) : ℚ) / 2 - 1/10 + 1/2 = (k : ℚ) + 9/10 := by
      push_cast; ring
    simp only [roundQ, h1, floor_int_add_q]
    have h0 : ⌊(9/10 : ℚ)⌋ = 0 := by norm_num
    rw [h0]
    push_cast
    rw [abs_le]
    constructor <;> linarith

/-- C6: the letterbox padding split on each axis gives the leading side
round(half - 0.1) pixels and the trailing side round(half + 0.1) pixels,
the leading side never exceeds the trailing side, and the two sides sum
exactly to the integer total padding (target minus resized extent) on
that axis. -/
theorem letterbox_padding_split (img_w img_h W H : ℤ) :
    (letterbox img_w img_h W H).left =
        roundQ ((letterbox img_w img_h W H).half_w - 1/10) ∧
    (letterbox img_w img_h W H).right =
        roundQ ((letterbox img_w img_h W H).half_w + 1/10) ∧
    (letterbox img_w img_h W H).top =
        roundQ ((letterbox img_w img_h W H).half_h - 1/10) ∧
    (letterbox img_w img_h W H).bottom =
        roundQ ((letterbox img_w img_h W H).half_h + 1/10) ∧
    (letterbox img_w img_h W H).left ≤ (letterbox img_w img_h W H).right ∧
    (letterbox img_w img_h W H).top ≤ (letterbox img_w img_h W H).bottom ∧
    (letterbox img_w img_h W H).left + (letterbox img_w img_h W H).right =
        (letterbox img_w img_h W H).pad_w ∧
    (letterbox img_w img_h W H).top + (letterbox img_w img_h W H).bottom =
        (letterbox img_w img_h W H).pad_h ∧
    (letterbox img_w img_h W H).pad_w = W - (letterbox img_w img_h W H).resize_w ∧
    (letterbox img_w img_h W H).pad_h = H - (letterbox img_w img_h W H).resize_h := by
  refine ⟨rfl, rfl, rfl, rfl, ?_, ?_, ?_, ?_, rfl, rfl⟩
  · exact roundQ_half_sub_le _
  · exact roundQ_half_sub_le _
  · exact roundQ_half_sub_add _
  · exact roundQ_half_sub_add _

theorem letterbox_scale_pos (img_w img_h W H : ℤ)
    (hw : 1 ≤ img_w) (hh : 1 ≤ img_h) (hW : 1 ≤ W) (hH : 1 ≤ H) :
    0 < (letterbox img_w img_h W H).scale := by
  have h1 : (0 : ℚ) < (H : ℚ) / (img_h : ℚ) :=
    div_pos (by exact_mod_cast lt_of_lt_of_le zero_lt_one hH)
      (by exact_mod_cast lt_of_lt_of_le zero_lt_one hh)
  have h2 : (0 : ℚ) < (W : ℚ) / (img_w : ℚ) :=
    div_pos (by exact_mod_cast lt_of_lt_of_le zero_lt_one hW)
      (by exact_mod_cast lt_of_lt_of_le zero_lt_one hw)
  simpa [letterbox] using lt_min h1 h2

theorem letterbox_roundtrip_pt (img_w img_h W H : ℤ)
    (hw : 1 ≤ img_w) (hh : 1 ≤ img_h) (hW : 1 ≤ W) (hH : 1 ≤ H) (p : Pt) :
    |(letterboxForward (letterbox img_w img_h W H)
        ((letterbox img_w img_h W H).tm.apply p)).x - p.x| ≤ 1 ∧
    |(letterboxForward (letterbox img_w img_h W H)
        ((letterbox img_w img_h W H).tm.apply p)).y - p.y| ≤ 1 := by
  set lb := letterbox img_w img_h W H with hlb
  have hs : 0 < lb.scale := letterbox_scale_pos img_w img_h W H hw hh hW hH
  have hsne : lb.scale ≠ 0 := ne_of_gt hs
  have htm : lb.tm = ⟨1 / lb.scale, 0, -lb.half_w / lb.scale,
      0, 1 / lb.scale, -lb.half_h / lb.scale, 0, 0, 1⟩ := rfl
  have hx : (letterboxForward lb (lb.tm.apply p)).x - p.x
      = (lb.left : ℚ) - lb.half_w := by
    simp only [letterboxForward, Mat3.apply, htm]
    field_simp
    ring
  have hy : (letterboxForward lb (lb.tm.apply p)).y - p.y
      = (lb.top : ℚ) - lb.half_h := by
    simp only [letterboxForward, Mat3.apply, htm]
    field_simp
    ring
  have hleft : lb.left = roundQ ((lb.pad_w : ℚ) / 2 - 1/10) := rfl
  have htop : lb.top = roundQ ((lb.pad_h : ℚ) / 2 - 1/10) := rfl
  have hhw : lb.half_w = (lb.pad_w : ℚ) / 2 := rfl
  have hhh : lb.half_h = (lb.pad_h : ℚ) / 2 := rfl
  constructor
  · rw [hx, hleft, hhw]
    exact le_trans (roundQ_half_sub_close lb.pad_w) (by norm_num)
  · rw [hy, htop, hhh]
    exact le_trans (roundQ_half_sub_close lb.pad_h) (by norm_num)

/-- C4: for every source image size and target network size, mapping each
of the four corners of the padded network image through the produced
inverse affine matrix and then re-applying the forward scale-then-pad
transform yields the original corner within a rounding tolerance of at
most 1 pixel. -/
theorem letterbox_corner_roundtrip (img_w img_h W H : ℤ)
    (hw : 1 ≤ img_w) (hh : 1 ≤ img_h) (hW : 1 ≤ W) (hH : 1 ≤ H)
    (p : Pt) (_hp : p ∈ networkCorners W H) :
    |(letterboxForward (letterbox img_w img_h W H)
        ((letterbox img_w img_h W H).tm.apply p)).x - p.x| ≤ 1 ∧
    |(letterboxForward (letterbox img_w img_h W H)
        ((letterbox img_w img_h W H).tm.apply p)).y - p.y| ≤ 1 := by
  exact letterbox_roundtrip_pt img_w img_h W H hw hh hW hH p

/-- Witness for C4 at a 640 x 480 source image, a 416 x 416 network input
and the corner (0, 0). -/
theorem letterbox_corner_roundtrip_witness :
    ((1 : ℤ) ≤ 640 ∧ (1 : ℤ) ≤ 480 ∧ (1 : ℤ) ≤ 416 ∧
      Pt.mk 0 0 ∈ networkCorners 416 416) ∧
    (|(letterboxForward (letterbox 640 480 416 416)
        ((letterbox 640 480 416 416).tm.apply ⟨0, 0⟩)).x - (Pt.mk 0 0).x| ≤ 1 ∧
     |(letterboxForward (letterbox 640 480 416 416)
        ((letterbox 640 480 416 416).tm.apply ⟨0, 0⟩)).y - (Pt.mk 0 0).y| ≤ 1) :=
  ⟨⟨by decide, by decide, by decide, by decide⟩,
    letterbox_corner_roundtrip 640 480 416 416 (by decide) (by decide)
      (by decide) (by decide) ⟨0, 0⟩ (by decide)⟩

/-- Model of std::vector: the elements visible through the size-governed
interface, plus the reserved capacity. -/
structure Vec (α : Type) where
  data : List α
  cap : ℕ
deriving Repr, DecidableEq, Inhabited

/-- std::vector::size. -/
def Vec.size {α : Type} (v : Vec α) : ℕ := v.data.length

/-- An empty vector (default construction). -/
def Vec.empty {α : Type} : Vec α := ⟨[], 0⟩

/-- std::vector::reserve: raises the capacity, leaves the size at 0. -/
def Vec.reserve {α : Type} (v : Vec α) (n : ℕ) : Vec α := ⟨v.data, max v.cap n⟩

/-- A write through operator[].  Writing at an index below the size
replaces that element.  Writing at or beyond the size is undefined
behaviour in C++; under the stock library the element storage may receive
the value but size() stays unchanged, so nothing is observable through
the size-governed interface: we model such a write as leaving the vector
unchanged (List.set is the identity out of range). -/
def Vec.setIdx {α : Type} (v : Vec α) (i : ℕ) (a : α) : Vec α :=
  ⟨v.data.set i a, v.cap⟩

/-- cv::Rect: integer corner and extents. -/
structure Rect where
  x : ℤ
  y : ℤ
  w : ℤ
  h : ℤ
deriving Repr, DecidableEq, Inhabited

/-- cv::Rect::area. -/
def Rect.area (r : Rect) : ℤ := r.w * r.h

/-- cv::boundingRect over a list of float points: the tightest integer
rectangle enclosing them (floor of the minima, ceiling of the maxima,
extents inclusive); the empty list yields the zero rectangle, matching
the early return for an empty point set. -/
def boundingRect : List Pt → Rect
  | [] => ⟨0, 0, 0, 0⟩
  | p :: rest =>
    let xmin : ℤ := ⌊rest.foldl (fun m q => min m q.x) p.x⌋
    let ymin : ℤ := ⌊rest.foldl (fun m q => min m q.y) p.y⌋
    let xmax : ℤ := ⌈rest.foldl (fun m q => max m q.x) p.x⌉
    let ymax : ℤ := ⌈rest.foldl (fun m q => max m q.y) p.y⌉
    ⟨xmin, ymin, xmax - xmin + 1, ymax - ymin + 1⟩

/-- Scanning helper for the first-maximum index. -/
def argmaxGo (bi : ℕ) (bv : ℚ) (i : ℕ) : List ℚ → ℕ
  | [] => bi
  | y :: ys => if bv < y then argmaxGo i y (i + 1) ys else argmaxGo bi bv (i + 1) ys

/-- cv::minMaxLoc position of the maximum over a row range: the index of
the first maximal element (the running maximum is replaced only on a
strictly greater value). -/
def argmaxFirst : List ℚ → ℕ
  | [] => 0
  | x :: xs => argmaxGo 0 x 1 xs

/-- The detection object (ArmorObject): quadrilateral points, bounding
box, color class, number class, confidence. -/
structure ArmorObject where
  pts : Vec Pt
  box : Rect
  color : ℕ
  number : ℕ
  prob : ℚ
deriving Repr, DecidableEq, Inhabited

/-- The three parallel outputs of generate_proposals: detection objects,
confidences, axis-aligned boxes. -/
structure Proposals where
  objs : List ArmorObject
  scores : List ℚ
  rects : List Rect
deriving Repr, DecidableEq, Inhabited

/-- One iteration of the row loop of generate_proposals (lines 84-140):
read the confidence at column 8, skip the row when it is strictly below
the threshold, otherwise arg-max the color and number score ranges, map
the four points through the transform matrix, and append object, score
and bounding box. -/
def processRow (tm : Mat3) (conf_threshold : ℚ) (acc : Proposals)
    (row : List ℚ) : Proposals :=
  let confidence := row.getD 8 0
  if confidence < conf_threshold then acc
  else
    let color_id := argmaxFirst ((row.drop 9).take NUM_COLORS)
    let num_id := argmaxFirst ((row.drop (9 + NUM_COLORS)).take NUM_CLASSES)
    let p1 := tm.apply ⟨row.getD 0 0, row.getD 1 0⟩
    let p2 := tm.apply ⟨row.getD 2 0, row.getD 3 0⟩
    let p3 := tm.apply ⟨row.getD 4 0, row.getD 5 0⟩
    let p4 := tm.apply ⟨row.getD 6 0, row.getD 7 0⟩
    let pts := (((((Vec.empty).reserve 4).setIdx 0 p1).setIdx 1 p2).setIdx
        2 p3).setIdx 3 p4
    let rect := boundingRect pts.data
    let obj : ArmorObject := ⟨pts, rect, color_id, num_id, confidence⟩
    ⟨acc.objs ++ [obj], acc.scores ++ [confidence], acc.rects ++ [rect]⟩

/-- generate_proposals (lines 79-141): fold the row loop over the output
buffer rows. -/
def generate_proposals (output_buffer : List (List ℚ)) (tm : Mat3)
    (conf_threshold : ℚ) : Proposals :=
  output_buffer.foldl (processRow tm conf_threshold) ⟨[], [], []⟩

theorem processRow_skip (tm : Mat3) (ct : ℚ) (acc : Proposals)
    (row : List ℚ) (h : row.getD 8 0 < ct) :
    processRow tm ct acc row = acc := by
  simp only [processRow]
  rw [if_pos h]

theorem processRow_keep_scores (tm : Mat3) (ct : ℚ) (acc : Proposals)
    (row : List ℚ) (h : ¬ row.getD 8 0 < ct) :
    (processRow tm ct acc row).scores = acc.scores ++ [row.getD 8 0] := by
  simp only [processRow]
  rw [if_neg h]

theorem processRow_keep_probs (tm : Mat3) (ct : ℚ) (acc : Proposals)
    (row : List ℚ) (h : ¬ row.getD 8 0 < ct) :
    (processRow tm ct acc row).objs.map ArmorObject.prob =
      acc.objs.map ArmorObject.prob ++ [row.getD 8 0] := by
  simp only [processRow]
  rw [if_neg h]
  simp

theorem generate_proposals_fold_scores (rows : List (List ℚ)) (tm : Mat3)
    (ct : ℚ) (acc : Proposals) :
    (rows.foldl (processRow tm ct) acc).scores =
      acc.scores ++
        (rows.filter (fun r => decide (ct ≤ r.getD 8 0))).map
          (fun r => r.getD 8 0) := by
  induction rows generalizing acc with
  | nil => simp
  | cons r rest ih =>
    rw [List.foldl_cons, List.filter_cons, ih]
    by_cases h : r.getD 8 0 < ct
    · have h2 : decide (ct ≤ r.getD 8 0) = false :=
        decide_eq_false (not_le.mpr h)
      rw [processRow_skip tm ct acc r h, h2]
      simp
    · have h2 : decide (ct ≤ r.getD 8 0) = true :=
        decide_eq_true (not_lt.mp h)
      rw [processRow_keep_scores tm ct acc r h, h2]
      simp

theorem generate_proposals_fold_probs (rows : List (List ℚ)) (tm : Mat3)
    (ct : ℚ) (acc : Proposals) :
    (rows.foldl (processRow tm ct) acc).objs.map ArmorObject.prob =
      acc.objs.map ArmorObject.prob ++
        (rows.filter (fun r => decide (ct ≤ r.getD 8 0))).map
          (fun r => r.getD 8 0) := by
  induction rows generalizing acc with
  | nil => simp
  | cons r rest ih =>
    rw [List.foldl_cons, List.filter_cons, ih]
    by_cases h : r.getD 8 0 < ct
    · have h2 : decide (ct ≤ r.getD 8 0) = false :=
        decide_eq_false (not_le.mpr h)
      rw [processRow_skip tm ct acc r h, h2]
      simp
    · have h2 : decide (ct ≤ r.getD 8 0) = true :=
        decide_eq_true (not_lt.mp h)
      rw [processRow_keep_probs tm ct acc r h, h2]
      simp

/-- C5: the decoder keeps a raw row if and only if its confidence at
column 8 is greater than or equal to the configured threshold (a row
exactly at the threshold is retained, one strictly below is skipped):
the emitted score list, and equally the confidences of the emitted
objects, are exactly the inclusively-filtered rows' confidences in row
order. -/
theorem generate_proposals_threshold_inclusive (output_buffer : List (List ℚ))
    (tm : Mat3) (ct : ℚ) :
    (generate_proposals output_buffer tm ct).scores =
      (output_buffer.filter (fun r => decide (ct ≤ r.getD 8 0))).map
        (fun r => r.getD 8 0) ∧
    (generate_proposals output_buffer tm ct).objs.map ArmorObject.prob =
      (output_buffer.filter (fun r => decide (ct ≤ r.getD 8 0))).map
        (fun r => r.getD 8 0) := by
  constructor
  · simpa using generate_proposals_fold_scores output_buffer tm ct ⟨[], [], []⟩
  · simpa using generate_proposals_fold_probs output_buffer tm ct ⟨[], [], []⟩

/-- The identity transform matrix, used as a concrete input. -/
def idMat3 : Mat3 := ⟨1, 0, 0, 0, 1, 0, 0, 0, 1⟩

/-- A concrete raw row (21 columns: 8 point coordinates, confidence 0.9,
4 color scores, 8 number scores). -/
def sampleRow : List ℚ :=
  [0, 0, 10, 0, 10, 10, 0, 10, 9/10, 1, 0, 0, 0, 1, 0, 0, 0, 0, 0, 0, 0]

/-- C9 is false on the code: reserve(4) only raises capacity, so at the
moment each of the four operator[] writes happens the point list still
has size 0, not at least 4, and the decoded object's point list remains
empty (while its capacity is 4).  Evaluated on a concrete surviving row
(confidence 0.9 against threshold 0.2). -/
theorem generate_proposals_pts_write_out_of_bounds :
    ((Vec.empty : Vec Pt).reserve 4).size = 0 ∧
    ¬ 4 ≤ ((Vec.empty : Vec Pt).reserve 4).size ∧
    (generate_proposals [sampleRow] idMat3 (1/5)).objs.length = 1 ∧
    ((generate_proposals [sampleRow] idMat3 (1/5)).objs.getD 0
        default).pts.size = 0 ∧
    ((generate_proposals [sampleRow] idMat3 (1/5)).objs.getD 0
        default).pts.cap = 4 := by
  refine ⟨rfl, by decide, ?_, ?_, ?_⟩ <;>
    norm_num [generate_proposals, processRow, sampleRow, idMat3, Vec.setIdx,
      Vec.reserve, Vec.empty, Vec.size, boundingRect, argmaxFirst, argmaxGo,
      Mat3.apply, NUM_COLORS, NUM_CLASSES]

/-- cv::Rect intersection (operator&) area: overlap extents clamped at
zero when the rectangles are disjoint. -/
def Rect.interArea (a b : Rect) : ℤ :=
  let iw := min (a.x + a.w) (b.x + b.w) - max a.x b.x
  let ih := min (a.y + a.h) (b.y + b.h) - max a.y b.y
  if 0 < iw ∧ 0 < ih then iw * ih else 0

/-- Modelled from the spec: the overlap measure of the DetectionFilter
(spec section 4.3), intersection-over-union on the axis-aligned boxes
produced by the decoder; the filter itself (cv::dnn::NMSBoxes) is
external library code.  A pair of degenerate boxes whose areas sum to
zero counts as fully overlapping (jaccard distance zero), matching the
external implementation's zero-area guard. -/
def rectOverlap (a b : Rect) : ℚ :=
  if a.area + b.area ≤ 0 then 1
  else (Rect.interArea a b : ℚ) /
    ((a.area : ℚ) + (b.area : ℚ) - (Rect.interArea a b : ℚ))

/-- Modelled from the spec: the DetectionFilter candidate set (spec
section 4.3) — candidate boxes paired with their confidences and their
indices into the original list, restricted to confidences at or above
the confidence threshold. -/
def nmsCandidates (rects : List Rect) (scores : List ℚ)
    (score_threshold : ℚ) : List (ℚ × ℕ × Rect) :=
  (List.range scores.length).filterMap fun i =>
    let s := scores.getD i 0
    if score_threshold ≤ s then some (s, i, rects.getD i default) else none

/-- Stable descending insertion by confidence (ties keep the earlier
index first). -/
def insertDesc (p : ℚ × ℕ × Rect) :
    List (ℚ × ℕ × Rect) → List (ℚ × ℕ × Rect)
  | [] => [p]
  | q :: qs => if q.1 < p.1 then p :: q :: qs else q :: insertDesc p qs

/-- Stable insertion sort by descending confidence. -/
def sortDesc : List (ℚ × ℕ × Rect) → List (ℚ × ℕ × Rect)
  | [] => []
  | p :: ps => insertDesc p (sortDesc ps)

/-- Modelled from the spec: the greedy suppression loop of the
DetectionFilter (spec section 4.3) — walk the candidates in descending
confidence, keep one when its overlap with every already-kept box is at
most the overlap threshold, and stop once the kept count reaches the
maximum (a non-positive maximum means no cap). -/
def nmsLoop (nms_threshold : ℚ) (top_k : ℤ) :
    List (ℕ × Rect) → List (ℚ × ℕ × Rect) → List (ℕ × Rect)
  | kept, [] => kept
  | kept, (_, i, r) :: rest =>
    if 0 < top_k ∧ top_k ≤ (kept.length : ℤ) then kept
    else if kept.all fun k => decide (rectOverlap r k.2 ≤ nms_threshold) then
      nmsLoop nms_threshold top_k (kept ++ [(i, r)]) rest
    else nmsLoop nms_threshold top_k kept rest

/-- Modelled from the spec: the DetectionFilter (spec section 4.3,
cv::dnn::NMSBoxes in the source at line 241) — returns the indices of the
surviving candidates in the order emitted: descending confidence,
suppression-filtered, capped at the maximum output count. -/
def nmsFilter (rects : List Rect) (scores : List ℚ)
    (score_threshold nms_threshold : ℚ) (top_k : ℤ) : List ℕ :=
  (nmsLoop nms_threshold top_k []
    (sortDesc (nmsCandidates rects scores score_threshold))).map Prod.fst

/-- The dispatcher's result-assembly loop (lines 244-246): for i in
[0, indices.size()) it pushes objs_tmp[i] — the loop counter i, not
indices[i], indexes the candidate list. -/
def assemble_result (objs_tmp : List ArmorObject) (indices : List ℕ) :
    List ArmorObject :=
  (List.range indices.length).map fun i => objs_tmp.getD i default

/-- Decoding, filtering and assembly as performed by process_callback
(lines 236-246) on a decoded output buffer. -/
def process_output (output_buffer : List (List ℚ)) (tm : Mat3)
    (conf_threshold nms_threshold : ℚ) (top_k : ℤ) : List ArmorObject :=
  let props := generate_proposals output_buffer tm conf_threshold
  let indices := nmsFilter props.rects props.scores conf_threshold
    nms_threshold top_k
  assemble_result props.objs indices

/-- Two concrete decoded candidates: confidences 0.5 and 0.9, disjoint
boxes. -/
def c1Objs : List ArmorObject :=
  [⟨Vec.empty, ⟨0, 0, 10, 10⟩, 0, 0, 1/2⟩,
   ⟨Vec.empty, ⟨100, 0, 10, 10⟩, 1, 1, 9/10⟩]

/-- The boxes of c1Objs. -/
def c1Rects : List Rect := [⟨0, 0, 10, 10⟩, ⟨100, 0, 10, 10⟩]

/-- The confidences of c1Objs. -/
def c1Scores : List ℚ := [1/2, 9/10]

/-- C1 is false on the code: on two disjoint candidates with confidences
0.5 and 0.9 the filter emits the index list [1, 0], but the assembly
loop delivers the candidates at positions 0 and 1 (confidences 0.5 then
0.9) instead of the candidates at the emitted indices (0.9 then 0.5):
the 0th delivered detection has confidence 0.5 while the candidate at
the filter's 0th emitted index has confidence 0.9. -/
theorem assemble_ignores_filter_indices :
    nmsFilter c1Rects c1Scores (1/5) (1/2) 5 = [1, 0] ∧
    (assemble_result c1Objs
        (nmsFilter c1Rects c1Scores (1/5) (1/2) 5)).map ArmorObject.prob =
      [1/2, 9/10] ∧
    (nmsFilter c1Rects c1Scores (1/5) (1/2) 5).map
        (fun k => (c1Objs.getD k default).prob) = [9/10, 1/2] ∧
    (1/2 : ℚ) ≠ 9/10 := by
  have hix : nmsFilter c1Rects c1Scores (1/5) (1/2) 5 = [1, 0] := by
    norm_num [nmsFilter, nmsCandidates, sortDesc, insertDesc, nmsLoop,
      rectOverlap, Rect.interArea, Rect.area, c1Rects, c1Scores,
      List.range_succ, List.filterMap_cons, List.all_cons, List.all_nil,
      decide_eq_true_eq]
  refine ⟨hix, ?_, ?_, by norm_num⟩
  · rw [hix]
    norm_num [assemble_result, c1Objs, List.range_succ]
  · rw [hix]
    norm_num [c1Objs]

/-- Three concrete decoded candidates: confidences 0.5, 0.9, 0.8,
pairwise disjoint boxes, so none is suppressed. -/
def c3Objs : List ArmorObject :=
  [⟨Vec.empty, ⟨0, 0, 10, 10⟩, 0, 0, 1/2⟩,
   ⟨Vec.empty, ⟨100, 0, 10, 10⟩, 1, 1, 9/10⟩,
   ⟨Vec.empty, ⟨200, 0, 10, 10⟩, 2, 2, 4/5⟩]

/-- The boxes of c3Objs. -/
def c3Rects : List Rect :=
  [⟨0, 0, 10, 10⟩, ⟨100, 0, 10, 10⟩, ⟨200, 0, 10, 10⟩]

/-- The confidences of c3Objs. -/
def c3Scores : List ℚ := [1/2, 9/10, 4/5]

/-- C3 is false on the code: with three pairwise disjoint candidates of
confidences 0.5, 0.9, 0.8 and maximum output count 2, all three survive
suppression (the uncapped filter emits [1, 2, 0], more than the
maximum), the capped filter emits [1, 2], and the final list indeed has
exactly 2 elements — but they are the candidates at positions 0 and 1
(confidences 0.5 and 0.9), and 0.5 is not among the top-2 confidences
{0.9, 0.8} of the non-suppressed candidates. -/
theorem assemble_breaks_topk :
    nmsFilter c3Rects c3Scores (1/5) (1/2) 0 = [1, 2, 0] ∧
    nmsFilter c3Rects c3Scores (1/5) (1/2) 2 = [1, 2] ∧
    (assemble_result c3Objs
        (nmsFilter c3Rects c3Scores (1/5) (1/2) 2)).map ArmorObject.prob =
      [1/2, 9/10] ∧
    (assemble_result c3Objs
        (nmsFilter c3Rects c3Scores (1/5) (1/2) 2)).length = 2 ∧
    (1/2 : ℚ) ∉ ([9/10, 4/5] : List ℚ) := by
  have hix : nmsFilter c3Rects c3Scores (1/5) (1/2) 2 = [1, 2] := by
    norm_num [nmsFilter, nmsCandidates, sortDesc, insertDesc, nmsLoop,
      rectOverlap, Rect.interArea, Rect.area, c3Rects, c3Scores,
      List.range_succ, List.filterMap_cons, List.all_cons, List.all_nil,
      decide_eq_true_eq]
  refine ⟨?_, hix, ?_, ?_, by norm_num⟩
  · norm_num [nmsFilter, nmsCandidates, sortDesc, insertDesc, nmsLoop,
      rectOverlap, Rect.interArea, Rect.area, c3Rects, c3Scores,
      List.range_succ, List.filterMap_cons, List.all_cons, List.all_nil,
      decide_eq_true_eq]
  · rw [hix]
    norm_num [assemble_result, c3Objs, List.range_succ]
  · rw [hix]
    norm_num [assemble_result]

/-- A concrete two-row output buffer: row confidences 0.5 and 0.9, both
above the threshold 0.2. -/
def c2Rows : List (List ℚ) :=
  [[0, 0, 10, 0, 10, 10, 0, 10, 1/2, 1, 0, 0, 0, 1, 0, 0, 0, 0, 0, 0, 0],
   [0, 0, 10, 0, 10, 10, 0, 10, 9/10, 0, 1, 0, 0, 0, 1, 0, 0, 0, 0, 0, 0]]

/-- C2 is false on the code: on a two-row buffer with confidences 0.5
and 0.9 (threshold 0.2, overlap threshold 0.5, maximum 5) the decoder
keeps both rows, the filter emits only index 1 (row 0 is suppressed:
because the point-list writes after reserve never take effect, both
candidate boxes are the zero rectangle, which the filter treats as fully
overlapping), yet the final emitted list is the single detection of
confidence 0.5 — the suppressed row 0 — while the surviving row 1 is
never delivered.  The confidence-threshold half of the invariant does
hold (0.5 is at least 0.2). -/
theorem emitted_detection_was_suppressed :
    (generate_proposals c2Rows idMat3 (1/5)).objs.map ArmorObject.prob =
      [1/2, 9/10] ∧
    nmsFilter (generate_proposals c2Rows idMat3 (1/5)).rects
        (generate_proposals c2Rows idMat3 (1/5)).scores (1/5) (1/2) 5 =
      [1] ∧
    (process_output c2Rows idMat3 (1/5) (1/2) 5).map ArmorObject.prob =
      [1/2] ∧
    ((1/5 : ℚ) ≤ 1/2) := by
  have hgp : generate_proposals c2Rows idMat3 (1/5) =
      ⟨[⟨⟨[], 4⟩, ⟨0, 0, 0, 0⟩, 0, 0, 1/2⟩, ⟨⟨[], 4⟩, ⟨0, 0, 0, 0⟩, 1, 1, 9/10⟩],
       [1/2, 9/10], [⟨0, 0, 0, 0⟩, ⟨0, 0, 0, 0⟩]⟩ := by
    norm_num [generate_proposals, processRow, c2Rows, idMat3, Vec.setIdx,
      Vec.reserve, Vec.empty, boundingRect, argmaxFirst, argmaxGo,
      Mat3.apply, NUM_COLORS, NUM_CLASSES]
  have hix : nmsFilter (generate_proposals c2Rows idMat3 (1/5)).rects
      (generate_proposals c2Rows idMat3 (1/5)).scores (1/5) (1/2) 5 = [1] := by
    rw [hgp]
    norm_num [nmsFilter, nmsCandidates, sortDesc, insertDesc, nmsLoop,
      rectOverlap, Rect.interArea, Rect.area, List.range_succ,
      List.filterMap_cons, List.all_cons, List.all_nil, decide_eq_true_eq]
  refine ⟨?_, hix, ?_, by norm_num⟩
  · rw [hgp]
    norm_num
  · show (assemble_result (generate_proposals c2Rows idMat3 (1/5)).objs
        (nmsFilter (generate_proposals c2Rows idMat3 (1/5)).rects
          (generate_proposals c2Rows idMat3 (1/5)).scores (1/5) (1/2) 5)).map
        ArmorObject.prob = [1/2]
    rw [hix, hgp]
    norm_num [assemble_result, List.range_succ]

/-- cv::dnn::blobFromImage semantics (the documented contract of the
external call at lines 206-209): subtract the per-channel mean, multiply
by the scale factor, optionally swap channels 0 and 2 (BGR to RGB), and
lay the result out planar (NCHW) with a leading batch dimension of 1.
The source image is a flat interleaved (HWC) pixel list of H * W * 3
entries. -/
def blobFromImage (img : List ℚ) (W H : ℕ) (scalefactor : ℚ)
    (mean : ℚ) (swapRB : Bool) : List ℚ :=
  (List.range (1 * 3 * (H * W))).map fun idx =>
    let c := idx / (H * W)
    let y := idx % (H * W) / W
    let x := idx % W
    let srcC := if swapRB then 2 - c else c
    (img.getD ((y * W + x) * 3 + srcC) 0 - mean) * scalefactor

/-- The blob construction exactly as process_callback calls it (lines
206-209): scale factor 1.0, zero mean, swapRB true. -/
def make_blob (img : List ℚ) (W H : ℕ) : List ℚ :=
  blobFromImage img W H 1 0 true

/-- C10: the input tensor is built with scale factor exactly 1.0: the
planar (NCHW, leading batch dimension 1) blob entry for channel c at
pixel (y, x) is the source pixel value at interleaved channel 2 - c,
numerically unchanged (so 0-255 pixel values stay in 0-255, instead of
being normalized to the unit interval), and the blob has exactly
1 * 3 * H * W entries. -/
theorem make_blob_carries_pixels_unscaled (img : List ℚ) (W H c y x : ℕ)
    (hc : c < 3) (hy : y < H) (hx : x < W) :
    (make_blob img W H).getD (c * (H * W) + y * W + x) 0 =
      img.getD ((y * W + x) * 3 + (2 - c)) 0 ∧
    (make_blob img W H).length = 1 * 3 * (H * W) := by
  have hW : 0 < W := lt_of_le_of_lt (Nat.zero_le x) hx
  have hH : 0 < H := lt_of_le_of_lt (Nat.zero_le y) hy
  have hHW : 0 < H * W := Nat.mul_pos hH hW
  have hr : y * W + x < H * W := by
    calc y * W + x < y * W + W := Nat.add_lt_add_left hx _
    _ = (y + 1) * W := by ring
    _ ≤ H * W := Nat.mul_le_mul_right W hy
  have hidx : c * (H * W) + y * W + x < 1 * 3 * (H * W) := by
    calc c * (H * W) + y * W + x = c * (H * W) + (y * W + x) := by ring
    _ < c * (H * W) + H * W := Nat.add_lt_add_left hr _
    _ = (c + 1) * (H * W) := by ring
    _ ≤ 3 * (H * W) := Nat.mul_le_mul_right (H * W) hc
    _ = 1 * 3 * (H * W) := by ring
  constructor
  · have harr : c * (H * W) + y * W + x = H * W * c + (y * W + x) := by ring
    have hdiv : (c * (H * W) + y * W + x) / (H * W) = c := by
      rw [harr, Nat.mul_add_div hHW, Nat.div_eq_of_lt hr, Nat.add_zero]
    have hmod : (c * (H * W) + y * W + x) % (H * W) = y * W + x := by
      rw [harr, Nat.mul_add_mod, Nat.mod_eq_of_lt hr]
    have harr2 : y * W + x = W * y + x := by ring
    have hdiv2 : (y * W + x) / W = y := by
      rw [harr2, Nat.mul_add_div hW, Nat.div_eq_of_lt hx, Nat.add_zero]
    have hmodW : (c * (H * W) + y * W + x) % W = x := by
      have h1 : (c * (H * W) + y * W + x) % (H * W) % W = x := by
        rw [hmod, harr2, Nat.mul_add_mod, Nat.mod_eq_of_lt hx]
      rwa [Nat.mod_mod_of_dvd _ ⟨H, by ring⟩] at h1
    unfold make_blob blobFromImage
    rw [List.getD_eq_getElem?_getD, List.getElem?_map,
      List.getElem?_range hidx]
    simp only [Option.map_some', Option.getD_some]
    rw [hmod, hdiv2, hmodW, hdiv]
    simp
  · simp [make_blob, blobFromImage]

/-- Witness for C10 on a one-pixel image with channel values (10, 20,
30): the blob entry for channel 0 is the source value of channel 2. -/
theorem make_blob_carries_pixels_unscaled_witness :
    ((0 : ℕ) < 3 ∧ (0 : ℕ) < 1) ∧
    ((make_blob [10, 20, 30] 1 1).getD (0 * (1 * 1) + 0 * 1 + 0) 0 =
        List.getD [10, 20, 30] ((0 * 1 + 0) * 3 + (2 - 0)) 0 ∧
      (make_blob [10, 20, 30] 1 1).length = 1 * 3 * (1 * 1)) :=
  ⟨⟨by decide, by decide⟩,
    make_blob_carries_pixels_unscaled [10, 20, 30] 1 1 0 0 0 (by decide)
      (by decide) (by decide)⟩

/-- A cv::Mat frame: pixel grid dimensions plus flat interleaved pixel
data. -/
structure Frame where
  rows : ℕ
  cols : ℕ
  data : List ℚ
deriving Repr, DecidableEq, Inhabited

/-- cv::Mat::empty(): the frame has no pixels (zero rows or zero
columns). -/
def Frame.empty (f : Frame) : Bool := f.rows == 0 || f.cols == 0

/-- The OpenVINODetector state the submission path reads: the
configuration thresholds and cap, the compiled model as an oracle
mapping the input blob to the decoded output-buffer rows, and whether an
inference callback is registered (infer_callback_). -/
structure Detector where
  conf_threshold : ℚ
  nms_threshold : ℚ
  top_k : ℤ
  model : List ℚ → List (List ℚ)
  has_callback : Bool

/-- The observable outcome of one submission: the boolean the
std::future resolves to, the number of compiled-model invocations, and
the argument triples of every callback invocation. -/
structure CallResult where
  ret : Bool
  model_calls : ℕ
  callback_calls : List (List ArmorObject × ℤ × Frame)
deriving DecidableEq

/-- The detection list process_callback computes for a resized frame and
transform matrix: blob construction, one model inference, decoding,
filtering, assembly (lines 204-246). -/
def detect_objects (d : Detector) (resized : Frame) (tm : Mat3) :
    List ArmorObject :=
  let blob := make_blob resized.data resized.cols resized.rows
  let output_buffer := d.model blob
  process_output output_buffer tm d.conf_threshold d.nms_threshold d.top_k

/-- process_callback (lines 200-255): run the pipeline once (the model
is invoked unconditionally), then, if a callback is registered, invoke
it with (final detections, timestamp, source frame) and return true;
otherwise return false without invoking anything. -/
def process_callback (d : Detector) (resized : Frame) (tm : Mat3)
    (timestamp_nanosec : ℤ) (src_img : Frame) : CallResult :=
  let objs_result := detect_objects d resized tm
  if d.has_callback then
    ⟨true, 1, [(objs_result, timestamp_nanosec, src_img)]⟩
  else
    ⟨false, 1, []⟩

/-- push_input (lines 178-193): an empty frame resolves false at once
without touching the model; otherwise the frame is letterboxed and
process_callback runs as the asynchronous unit of work.  The pixel
content of the letterboxed image is produced by the external resize and
copyMakeBorder routines and enters here as the oracle lbImg; the
transform matrix is the embedded letterbox matrix at the fixed network
input size. -/
def push_input (lbImg : Frame → Frame) (d : Detector) (rgb_img : Frame)
    (timestamp_nanosec : ℤ) : CallResult :=
  if rgb_img.empty then ⟨false, 0, []⟩
  else
    process_callback d (lbImg rgb_img)
      (letterbox (rgb_img.cols : ℤ) (rgb_img.rows : ℤ) INPUT_W INPUT_H).tm
      timestamp_nanosec rgb_img

/-- C7: submitting an empty frame (zero rows or zero columns) resolves
false, never invokes the compiled model, and never invokes the callback;
the embedded submission is a total function, so no exception or abort
occurs on this path. -/
theorem push_input_empty_frame (lbImg : Frame → Frame) (d : Detector)
    (rgb_img : Frame) (ts : ℤ)
    (h : rgb_img.rows = 0 ∨ rgb_img.cols = 0) :
    push_input lbImg d rgb_img ts = ⟨false, 0, []⟩ := by
  have hb : rgb_img.empty = true := by
    rcases h with h | h <;> simp [Frame.empty, h]
  simp [push_input, hb]

/-- A concrete detector configuration with a registered callback and a
model oracle returning no rows. -/
def det0 : Detector := ⟨1/5, 1/2, 5, fun _ => [], true⟩

/-- Witness for C7 on a 0 x 5 frame. -/
theorem push_input_empty_frame_witness :
    ((Frame.mk 0 5 []).rows = 0 ∨ (Frame.mk 0 5 []).cols = 0) ∧
    push_input id det0 ⟨0, 5, []⟩ 3 = ⟨false, 0, []⟩ :=
  ⟨Or.inl rfl, push_input_empty_frame id det0 ⟨0, 5, []⟩ 3 (Or.inl rfl)⟩

/-- C8: for every non-empty frame the pipeline runs to completion — the
compiled model is invoked exactly once in every case; with no callback
registered the result resolves false and the computed detections are
discarded without invoking anything; with a callback registered it is
invoked exactly once, with the final detection list, the timestamp and
the original source frame, and the result resolves true. -/
theorem push_input_delivery (lbImg : Frame → Frame) (d : Detector)
    (rgb_img : Frame) (ts : ℤ) (h : rgb_img.empty = false) :
    (push_input lbImg d rgb_img ts).model_calls = 1 ∧
    (d.has_callback = false →
      push_input lbImg d rgb_img ts = ⟨false, 1, []⟩) ∧
    (d.has_callback = true →
      push_input lbImg d rgb_img ts =
        ⟨true, 1,
          [(detect_objects d (lbImg rgb_img)
              (letterbox (rgb_img.cols : ℤ) (rgb_img.rows : ℤ)
                INPUT_W INPUT_H).tm, ts, rgb_img)]⟩) := by
  have hb : ¬ rgb_img.empty = true := by simp [h]
  rw [push_input, if_neg hb]
  cases hcb : d.has_callback <;> simp [process_callback, hcb]

/-- Witness for C8 on a non-empty 2 x 2 frame and the concrete detector
det0. -/
theorem push_input_delivery_witness :
    (Frame.mk 2 2 [1, 2, 3]).empty = false ∧
    ((push_input id det0 ⟨2, 2, [1, 2, 3]⟩ 7).model_calls = 1 ∧
     (det0.has_callback = false →
       push_input id det0 ⟨2, 2, [1, 2, 3]⟩ 7 = ⟨false, 1, []⟩) ∧
     (det0.has_callback = true →
       push_input id det0 ⟨2, 2, [1, 2, 3]⟩ 7 =
         ⟨true, 1,
           [(detect_objects det0 (id ⟨2, 2, [1, 2, 3]⟩)
               (letterbox ((2 : ℕ) : ℤ) ((2 : ℕ) : ℤ) INPUT_W INPUT_H).tm,
             7, ⟨2, 2, [1, 2, 3]⟩)]⟩)) :=
  ⟨rfl, push_input_delivery id det0 ⟨2, 2, [1, 2, 3]⟩ 7 rfl⟩

end RmAutoAim
